import Mathlib

/-
Verification of the pm-indexing-sim repository: a micro-benchmark harness
comparing leaf-node update strategies for persistent-memory indexes.
The six C++ simulators are shallowly embedded below:
  - article1_sorted_unsorted.cpp : insert_sorted, insert_unsorted, search_leaf
    over a fixed-capacity (128) leaf, with global cost counters Nw, Nclf, Nmf
    modelled as an explicit Stats value threaded through each call;
  - article2_wbtree.cpp : LeafBTreeVolatile, LeafBTreeLog, LeafWBTree over a
    fixed-capacity (32) leaf;
  - article3_bztree.cpp : the toy PMwCAS primitive and the BzTree-style leaf;
  - article1_extension.cpp / article2_extension.cpp / article3_extension.cpp :
    vector-backed leaf models and the shared run_mixed_workload driver
    template, embedded once, generically over a strategy record.
A leaf with count live keys is modelled as the list of its first count
slots (the C++ arrays hold garbage past count and never read it); machine
integers are modelled as Nat, and the C++ doubles of the driver (write
ratio, uniform reals, timestamps) as rationals.
-/

namespace PMSim

/-- Cost counters: word writes, cache-line flushes, memory fences.
Struct Stats in article2/article3; global counters Nw, Nclf, Nmf in
article1_sorted_unsorted.cpp. -/
structure Stats where
  Nw : Nat
  Nclf : Nat
  Nmf : Nat
deriving DecidableEq, Repr

/-- pcm_write: Nw += words. -/
def pcm_write (s : Stats) (words : Nat) : Stats :=
  { s with Nw := s.Nw + words }

/-- pcm_flush: Nclf += 1. -/
def pcm_flush (s : Stats) : Stats :=
  { s with Nclf := s.Nclf + 1 }

/-- pcm_fence: Nmf += 1. -/
def pcm_fence (s : Stats) : Stats :=
  { s with Nmf := s.Nmf + 1 }

/-- Zero-initialised counters, as at the start of each run. -/
def s0 : Stats := ⟨0, 0, 0⟩

/-- The insertion-position scan shared by the sorted-leaf inserts:
the loop `pos = 0; while (pos < count and keys[pos] < key) pos++` of
insert_sorted (article1_sorted_unsorted.cpp), LeafBTreeVolatile::insert and
LeafBTreeLog::insert (article2_wbtree.cpp); it is also the index returned by
std::lower_bound in the extension files. -/
def insPos : List Nat → Nat → Nat
  | [], _ => 0
  | x :: xs, key => if x < key then insPos xs key + 1 else 0

/-- Net effect on the live key prefix of the shift loop
`for (i = count; i > pos; i--) keys[i] = keys[i-1]` followed by
`keys[pos] = key`, and likewise of `keys.insert(lower_bound(...), key)` on a
vector: the key is placed at index pos, later keys move one slot right. -/
def insertAt (keys : List Nat) (pos : Nat) (key : Nat) : List Nat :=
  keys.take pos ++ key :: keys.drop pos

namespace Article1

/-- Capacity of LeafNode in article1_sorted_unsorted.cpp. -/
def CAP : Nat := 128

/-- insert_sorted (article1_sorted_unsorted.cpp): overflow check, scan for
pos, shift loop with one pcm_write per moved key, write the new key
(pcm_write), then pcm_flush and pcm_fence. -/
def insert_sorted (keys : List Nat) (key : Nat) (s : Stats) : List Nat × Stats :=
  if CAP ≤ keys.length then (keys, s)
  else
    let pos := insPos keys key
    let s1 := pcm_write s (keys.length - pos)
    (insertAt keys pos key, pcm_fence (pcm_flush (pcm_write s1 1)))

/-- insert_unsorted (article1_sorted_unsorted.cpp): overflow check, append at
slot count, one pcm_write, pcm_flush, pcm_fence. -/
def insert_unsorted (keys : List Nat) (key : Nat) (s : Stats) : List Nat × Stats :=
  if CAP ≤ keys.length then (keys, s)
  else (keys ++ [key], pcm_fence (pcm_flush (pcm_write s 1)))

/-- search_leaf (article1_sorted_unsorted.cpp): linear scan over the live
prefix, returning true at the first slot equal to target; no cost recorded. -/
def search_leaf : List Nat → Nat → Bool
  | [], _ => false
  | x :: xs, target => if x = target then true else search_leaf xs target

end Article1

namespace Article2

/-- Capacity CAP = 32 in article2_wbtree.cpp. -/
def CAP : Nat := 32

/-- LeafBTreeVolatile::insert (article2_wbtree.cpp): overflow check, scan for
pos, shift loop with one pcm_write per moved key, pcm_write for the new key;
no flush or fence (volatile baseline). -/
def LeafBTreeVolatile.insert (keys : List Nat) (key : Nat) (s : Stats) :
    List Nat × Stats :=
  if CAP ≤ keys.length then (keys, s)
  else
    let pos := insPos keys key
    (insertAt keys pos key, pcm_write (pcm_write s (keys.length - pos)) 1)

/-- The binary-search loop of LeafBTreeVolatile::search and
LeafBTreeLog::search (article2_wbtree.cpp):
`lo = 0; hi = count - 1; while (lo <= hi) { mid = (lo + hi) / 2; ... }`
with C++ ints modelled as Int. In every reachable call lo and hi are
non-negative, where C++ truncating division and Int division agree. -/
def bsearch (keys : List Nat) (k : Nat) (lo hi : Int) : Bool :=
  if lo ≤ hi then
    if keys.getD ((lo + hi) / 2).toNat 0 = k then true
    else if keys.getD ((lo + hi) / 2).toNat 0 < k then
      bsearch keys k ((lo + hi) / 2 + 1) hi
    else bsearch keys k lo ((lo + hi) / 2 - 1)
  else false
termination_by (hi + 1 - lo).toNat
decreasing_by
  all_goals omega

/-- LeafBTreeVolatile::search: binary search over the live prefix, no cost
recorded (the Stats argument is returned untouched). -/
def LeafBTreeVolatile.search (keys : List Nat) (k : Nat) (s : Stats) :
    Bool × Stats :=
  (bsearch keys k 0 ((keys.length : Int) - 1), s)

/-- LeafBTreeLog::insert (article2_wbtree.cpp): overflow check, 4-word log
record write plus flush plus fence, then the same scan and shift as the
volatile leaf, then flush and fence for the updated node. -/
def LeafBTreeLog.insert (keys : List Nat) (key : Nat) (s : Stats) :
    List Nat × Stats :=
  if CAP ≤ keys.length then (keys, s)
  else
    let s1 := pcm_fence (pcm_flush (pcm_write s 4))
    let pos := insPos keys key
    let s2 := pcm_write (pcm_write s1 (keys.length - pos)) 1
    (insertAt keys pos key, pcm_fence (pcm_flush s2))

/-- LeafWBTree::insert (article2_wbtree.cpp): overflow check, append at slot
count, then 2 word writes plus a single flush and fence for the slot-array
metadata update. -/
def LeafWBTree.insert (keys : List Nat) (key : Nat) (s : Stats) :
    List Nat × Stats :=
  if CAP ≤ keys.length then (keys, s)
  else (keys ++ [key], pcm_fence (pcm_flush (pcm_write s 2)))

end Article2

namespace Article3

/-- Capacity CAP = 32 in article3_bztree.cpp. -/
def CAP : Nat := 32

/-- A memory word of the BzTree leaf that a PMwCAS entry may target: the C++
code takes the addresses of leaf.keys[i] and of leaf.count. -/
inductive Loc
  | key (i : Nat)
  | cnt
deriving DecidableEq, Repr

/-- PMwCAS_Entry: a target location and the new value to be stored there. -/
structure PMwCAS_Entry where
  loc : Loc
  new_val : Nat
deriving DecidableEq, Repr

/-- LeafNode (article3_bztree.cpp): keys array (live and dead slots both
modelled, so that PMwCAS entries can address slot count) plus count. -/
structure LeafNode where
  keys : List Nat
  count : Nat
deriving DecidableEq, Repr

/-- Store a value through a location pointer: `*(e.addr) = e.new_val`. -/
def writeLoc (leaf : LeafNode) : Loc → Nat → LeafNode
  | Loc.key i, v => { leaf with keys := leaf.keys.set i v }
  | Loc.cnt, v => { leaf with count := v }

/-- pmwcas (article3_bztree.cpp): persist the descriptor metadata (2-word
write, flush, fence), apply every entry with one word write each, persist
the final state (flush, fence), return true unconditionally. -/
def pmwcas (entries : List PMwCAS_Entry) (leaf : LeafNode) (s : Stats) :
    Bool × LeafNode × Stats :=
  let s1 := pcm_fence (pcm_flush (pcm_write s 2))
  let fin := entries.foldl
    (fun ls e => (writeLoc ls.1 e.loc e.new_val, pcm_write ls.2 1)) (leaf, s1)
  (true, fin.1, pcm_fence (pcm_flush fin.2))

/-- The descriptor built by bztree_insert: the new key at slot count, and
count incremented by one (both values computed before the commit). -/
def bztree_desc (leaf : LeafNode) (key : Nat) : List PMwCAS_Entry :=
  [⟨Loc.key leaf.count, key⟩, ⟨Loc.cnt, leaf.count + 1⟩]

/-- bztree_insert (article3_bztree.cpp): overflow check, build the 2-entry
descriptor, commit it through pmwcas. -/
def bztree_insert (leaf : LeafNode) (key : Nat) (s : Stats) :
    LeafNode × Stats :=
  if CAP ≤ leaf.count then (leaf, s)
  else
    let r := pmwcas (bztree_desc leaf key) leaf s
    (r.2.1, r.2.2)

end Article3

/-- A leaf-strategy record: the common insert and search shape of the leaf
structs of the three extension files, over which their identical
run_mixed_workload template is instantiated. Search takes and returns the
Stats value, mirroring the C++ signature that passes Stats by reference. -/
structure Strategy (L : Type) where
  empty : L
  insert : L → Nat → Stats → L × Stats
  search : L → Nat → Stats → Bool × Stats

/-- MixedResult of the extension files: throughput and final counters. -/
structure MixedResult where
  throughput_ops_sec : ℚ
  stats : Stats
deriving DecidableEq

namespace Article1Ext

/-- UnsortedLeaf::insert (article1_extension.cpp): push_back, then
Nw += 1, Nclf += 1, Nmf += 1. The vector is unbounded: no capacity check. -/
def UnsortedLeaf.insert (keys : List Nat) (key : Nat) (s : Stats) :
    List Nat × Stats :=
  (keys ++ [key], { s with Nw := s.Nw + 1, Nclf := s.Nclf + 1, Nmf := s.Nmf + 1 })

/-- The linear-scan loop of UnsortedLeaf::search. -/
def UnsortedLeaf.scan : List Nat → Nat → Bool
  | [], _ => false
  | x :: xs, key => if x = key then true else UnsortedLeaf.scan xs key

/-- UnsortedLeaf::search (article1_extension.cpp): linear scan; the Stats
value is not touched. -/
def UnsortedLeaf.search (keys : List Nat) (key : Nat) (s : Stats) :
    Bool × Stats :=
  (UnsortedLeaf.scan keys key, s)

/-- SortedLeaf::insert (article1_extension.cpp): insert at the lower_bound
position, then Nw += 4, Nclf += 2, Nmf += 1. Unbounded vector. -/
def SortedLeaf.insert (keys : List Nat) (key : Nat) (s : Stats) :
    List Nat × Stats :=
  (insertAt keys (insPos keys key) key,
   { s with Nw := s.Nw + 4, Nclf := s.Nclf + 2, Nmf := s.Nmf + 1 })

/-- SortedLeaf::search (article1_extension.cpp): lower_bound, then compare
the found slot with the key; the Stats value is not touched. -/
def SortedLeaf.search (keys : List Nat) (key : Nat) (s : Stats) :
    Bool × Stats :=
  let i := insPos keys key
  (decide (i < keys.length) && decide (keys.getD i 0 = key), s)

/-- The UnsortedLeaf strategy instance of article1_extension.cpp. -/
def unsortedStrategy : Strategy (List Nat) :=
  ⟨[], UnsortedLeaf.insert, UnsortedLeaf.search⟩

/-- The SortedLeaf strategy instance of article1_extension.cpp. -/
def sortedStrategy : Strategy (List Nat) :=
  ⟨[], SortedLeaf.insert, SortedLeaf.search⟩

end Article1Ext

namespace Article2Ext

/-- LeafBaseline::insert (article2_extension.cpp): sorted vector insert at
the lower_bound position, then Nw += 4, Nclf += 2, Nmf += 1. -/
def LeafBaseline.insert (keys : List Nat) (key : Nat) (s : Stats) :
    List Nat × Stats :=
  (insertAt keys (insPos keys key) key,
   { s with Nw := s.Nw + 4, Nclf := s.Nclf + 2, Nmf := s.Nmf + 1 })

/-- LeafBaseline::search (article2_extension.cpp): lower_bound then compare;
the Stats value is not touched. -/
def LeafBaseline.search (keys : List Nat) (key : Nat) (s : Stats) :
    Bool × Stats :=
  let i := insPos keys key
  (decide (i < keys.length) && decide (keys.getD i 0 = key), s)

/-- The LeafBaseline strategy instance of article2_extension.cpp. -/
def baselineStrategy : Strategy (List Nat) :=
  ⟨[], LeafBaseline.insert, LeafBaseline.search⟩

end Article2Ext

/-- The prefill loop of run_mixed_workload: insert prefill generator keys
into the fresh leaf, starting from zeroed counters. preKeys i is the key the
seeded generator yields on its i-th prefill draw. -/
def prefillPhase {L : Type} (st : Strategy L) (prefill : Nat)
    (preKeys : Nat → Nat) : L × Stats :=
  (List.range prefill).foldl
    (fun ls i => st.insert ls.1 (preKeys i) ls.2) (st.empty, s0)

/-- One iteration of the timed loop of run_mixed_workload: draw r and key,
insert if r < write_ratio, otherwise search with the result discarded. -/
def opStep {L : Type} (st : Strategy L) (write_ratio : ℚ) (r : ℚ)
    (key : Nat) (ls : L × Stats) : L × Stats :=
  if r < write_ratio then st.insert ls.1 key ls.2
  else
    let bs := st.search ls.1 key ls.2
    (ls.1, bs.2)

/-- The timed loop of run_mixed_workload. opRs i and opKeys i are the values
the seeded generator yields on the i-th timed iteration (the dist01 draw and
the dist_key draw). -/
def timedPhase {L : Type} (st : Strategy L) (num_ops : Nat)
    (write_ratio : ℚ) (opRs : Nat → ℚ) (opKeys : Nat → Nat)
    (init : L × Stats) : L × Stats :=
  (List.range num_ops).foldl
    (fun ls i => opStep st write_ratio (opRs i) (opKeys i) ls) init

/-- run_mixed_workload, the driver template shared verbatim by
article1_extension.cpp, article2_extension.cpp and article3_extension.cpp:
prefill, then the timed loop; throughput = num_ops / elapsed with the two
clock samples t0, t1 taken around the timed loop. The key and r streams are
parameters: the C++ mt19937_64 generator derives them deterministically from
the hard-coded seed, before and independent of the clock samples. The
second component exposes the local leaf value at the end of the run. -/
def run_mixed_workload {L : Type} (st : Strategy L) (prefill num_ops : Nat)
    (write_ratio : ℚ) (preKeys opKeys : Nat → Nat) (opRs : Nat → ℚ)
    (t0 t1 : ℚ) : MixedResult × L :=
  let a := prefillPhase st prefill preKeys
  let b := timedPhase st num_ops write_ratio opRs opKeys a
  ({ throughput_ops_sec := (num_ops : ℚ) / (t1 - t0), stats := b.2 }, b.1)

/-- The MeasurementError failure class named by the spec. -/
inductive MeasurementError
  | measurementError
deriving DecidableEq, Repr

/-- The InvalidConfiguration failure class named by the spec. -/
inductive InvalidConfiguration
  | invalidConfiguration
deriving DecidableEq, Repr

/-- Modelled from the spec: the guarded throughput computation that no file
of the repository implements. The spec requires the core to guard against an
elapsed time of zero or less and fail with a MeasurementError instead of
silently producing an infinite or NaN value. -/
def throughput_guarded (num_ops : Nat) (elapsed : ℚ) :
    Except MeasurementError ℚ :=
  if elapsed ≤ 0 then Except.error MeasurementError.measurementError
  else Except.ok ((num_ops : ℚ) / elapsed)

/-- Modelled from the spec: the construction-time configuration check that
no file of the repository implements. The spec requires a writeRatio outside
[0,1] or a zero opsCount to be rejected with an InvalidConfiguration error. -/
def validate_config (write_ratio : ℚ) (num_ops : Nat) :
    Except InvalidConfiguration Unit :=
  if write_ratio < 0 ∨ 1 < write_ratio ∨ num_ops = 0 then
    Except.error InvalidConfiguration.invalidConfiguration
  else Except.ok ()

/-- Fold an insert routine over a key sequence, starting from the empty leaf
and zeroed counters: the shape of every prefill and benchmark loop in the
paper-reproduction files. -/
def buildWith (ins : List Nat → Nat → Stats → List Nat × Stats)
    (ks : List Nat) : List Nat × Stats :=
  ks.foldl (fun ls k => ins ls.1 k ls.2) ([], s0)

/-- The key sequence of Concrete scenario C of the spec. -/
def c6keys : List Nat := [5, 3, 4, 1, 2]

/-- The Stats component of the entry-application fold inside pmwcas: one
word write per entry, nothing else. -/
theorem pmwcas_fold_stats :
    ∀ (entries : List Article3.PMwCAS_Entry) (leaf : Article3.LeafNode)
      (s : Stats),
      (entries.foldl
        (fun ls e => (Article3.writeLoc ls.1 e.loc e.new_val, pcm_write ls.2 1))
        (leaf, s)).2 = { s with Nw := s.Nw + entries.length } := by
  intro entries
  induction entries with
  | nil => intro leaf s; simp
  | cons e es ih =>
    intro leaf s
    cases s with
    | mk a b c =>
      simp only [List.foldl_cons]
      rw [ih]
      simp [pcm_write]
      omega

/-- C1: committing a descriptor with k entries through pmwcas increments the
meter by exactly 2 + k word writes, 2 cache-line flushes and 2 memory
fences, independent of k, and always returns true. -/
theorem c1_pmwcas_cost_shape (entries : List Article3.PMwCAS_Entry)
    (leaf : Article3.LeafNode) (s : Stats) :
    (Article3.pmwcas entries leaf s).1 = true ∧
    (Article3.pmwcas entries leaf s).2.2 =
      { Nw := s.Nw + 2 + entries.length, Nclf := s.Nclf + 2,
        Nmf := s.Nmf + 2 } := by
  refine ⟨rfl, ?_⟩
  cases s with
  | mk a b c =>
    simp only [Article3.pmwcas]
    rw [pmwcas_fold_stats]
    simp [pcm_write, pcm_flush, pcm_fence]

/-- C2: for every capacity-bounded leaf variant, inserting into a leaf whose
count has reached its capacity (128 for article1, 32 for article2 and
article3) leaves the keys and the meter unchanged and signals nothing: the
call returns the untouched pair. -/
theorem c2_capacity_silent_noop (l1 l2 l3 l4 l5 : List Nat)
    (leaf : Article3.LeafNode) (k : Nat) (s : Stats)
    (h1 : 128 ≤ l1.length) (h2 : 128 ≤ l2.length) (h3 : 32 ≤ l3.length)
    (h4 : 32 ≤ l4.length) (h5 : 32 ≤ l5.length) (h6 : 32 ≤ leaf.count) :
    Article1.insert_sorted l1 k s = (l1, s) ∧
    Article1.insert_unsorted l2 k s = (l2, s) ∧
    Article2.LeafBTreeVolatile.insert l3 k s = (l3, s) ∧
    Article2.LeafBTreeLog.insert l4 k s = (l4, s) ∧
    Article2.LeafWBTree.insert l5 k s = (l5, s) ∧
    Article3.bztree_insert leaf k s = (leaf, s) := by
  refine ⟨?_, ?_, ?_, ?_, ?_, ?_⟩ <;>
    simp [Article1.insert_sorted, Article1.insert_unsorted, Article1.CAP,
      Article2.LeafBTreeVolatile.insert, Article2.LeafBTreeLog.insert,
      Article2.LeafWBTree.insert, Article2.CAP, Article3.bztree_insert,
      Article3.CAP, h1, h2, h3, h4, h5, h6]

/-- C2 witness: concrete full leaves for all six capacity-bounded variants. -/
theorem c2_capacity_silent_noop_witness :
    Article1.insert_sorted (List.replicate 128 7) 3 s0 =
      (List.replicate 128 7, s0) ∧
    Article1.insert_unsorted (List.replicate 128 7) 3 s0 =
      (List.replicate 128 7, s0) ∧
    Article2.LeafBTreeVolatile.insert (List.replicate 32 7) 3 s0 =
      (List.replicate 32 7, s0) ∧
    Article2.LeafBTreeLog.insert (List.replicate 32 7) 3 s0 =
      (List.replicate 32 7, s0) ∧
    Article2.LeafWBTree.insert (List.replicate 32 7) 3 s0 =
      (List.replicate 32 7, s0) ∧
    Article3.bztree_insert ⟨List.replicate 32 7, 32⟩ 3 s0 =
      (⟨List.replicate 32 7, 32⟩, s0) :=
  c2_capacity_silent_noop (List.replicate 128 7) (List.replicate 128 7)
    (List.replicate 32 7) (List.replicate 32 7) (List.replicate 32 7)
    ⟨List.replicate 32 7, 32⟩ 3 s0 (by simp) (by simp) (by simp)
    (by simp) (by simp) (by simp)

/-- C5: for fixed strategy, prefill, opsCount, writeRatio and generator
streams (the streams are what the fixed seed determines), the final cost
counters and the final leaf contents of run_mixed_workload do not depend on
the clock samples; only the throughput field can differ between two runs. -/
theorem c5_deterministic_counters {L : Type} (st : Strategy L)
    (prefill num_ops : Nat) (write_ratio : ℚ) (preKeys opKeys : Nat → Nat)
    (opRs : Nat → ℚ) (t0 t1 u0 u1 : ℚ) :
    (run_mixed_workload st prefill num_ops write_ratio preKeys opKeys opRs
        t0 t1).1.stats =
      (run_mixed_workload st prefill num_ops write_ratio preKeys opKeys opRs
        u0 u1).1.stats ∧
    (run_mixed_workload st prefill num_ops write_ratio preKeys opKeys opRs
        t0 t1).2 =
      (run_mixed_workload st prefill num_ops write_ratio preKeys opKeys opRs
        u0 u1).2 :=
  ⟨rfl, rfl⟩

/-- C6 counterexample: inserting [5,3,4,1,2] into an empty sorted-shift leaf
does leave [1,2,3,4,5], but records 13 word writes, not the 12 the claim
states: the shift distances are 0+1+1+3+3 = 8, not 7. -/
theorem c6_counterexample :
    (buildWith Article1.insert_sorted c6keys).1 = [1, 2, 3, 4, 5] ∧
    (buildWith Article1.insert_sorted c6keys).2.Nw = 13 ∧
    (buildWith Article1.insert_sorted c6keys).2.Nw ≠ 12 := by
  decide

/-- C6 amended: inserting [5,3,4,1,2] into an empty sorted-shift leaf leaves
[1,2,3,4,5] and records 8 + 5 = 13 word writes (shift distances 0+1+1+3+3
plus five new-key writes), in the article1 leaf and in the article2 volatile
leaf alike. -/
theorem c6_amended_write_count :
    (buildWith Article1.insert_sorted c6keys).1 = [1, 2, 3, 4, 5] ∧
    (buildWith Article1.insert_sorted c6keys).2.Nw = 8 + 5 ∧
    (buildWith Article2.LeafBTreeVolatile.insert c6keys).1 = [1, 2, 3, 4, 5] ∧
    (buildWith Article2.LeafBTreeVolatile.insert c6keys).2.Nw = 8 + 5 := by
  decide

/-- C7: the driver computes throughput as opsCount divided by the elapsed
time with no guard: with identical clock samples (elapsed zero) it still
returns a plain result whose throughput field is the unguarded quotient
3 / 0, whereas the spec-modelled guarded computation fails with
MeasurementError. -/
theorem c7_no_zero_elapsed_guard :
    (run_mixed_workload Article1Ext.unsortedStrategy 2 3 (1/2) (fun i => i)
        (fun i => i) (fun _ => (1 : ℚ)/2) 5 5).1.throughput_ops_sec =
      (3 : ℚ) / 0 ∧
    throughput_guarded 3 0 =
      Except.error MeasurementError.measurementError := by
  constructor
  · norm_num [run_mixed_workload]
  · rfl

/-- C8: the driver performs no construction-time validation: the
spec-modelled check rejects writeRatio 2 and opsCount 0, yet
run_mixed_workload with writeRatio 2 runs every timed operation as an
insert (r < 2 always holds for r drawn from [0,1)) and returns a plain
result: 3 baseline inserts record 12 word writes, 6 flushes, 3 fences. -/
theorem c8_no_config_validation :
    validate_config 2 3 =
      Except.error InvalidConfiguration.invalidConfiguration ∧
    validate_config (1/2) 0 =
      Except.error InvalidConfiguration.invalidConfiguration ∧
    (run_mixed_workload Article2Ext.baselineStrategy 0 3 2 (fun i => i)
        (fun i => i) (fun _ => (1 : ℚ)/2) 0 1).1.stats =
      { Nw := 12, Nclf := 6, Nmf := 3 } := by
  refine ⟨?_, ?_, ?_⟩
  · norm_num [validate_config]
  · norm_num [validate_config]
  · have h2 : ((2 : ℚ)⁻¹ < 2) := by norm_num
    simp [run_mixed_workload, timedPhase, prefillPhase, opStep,
      Article2Ext.baselineStrategy, Article2Ext.LeafBaseline.insert,
      List.range_succ, h2, insertAt, insPos, s0]

/-- C10: bztree_insert on a leaf below capacity builds a descriptor of
exactly two entries, writes the key at slot count, increments count by one,
and adds exactly 4 word writes, 2 flushes and 2 fences to the meter. -/
theorem c10_bztree_insert_below_cap (leaf : Article3.LeafNode) (key : Nat)
    (s : Stats) (h : leaf.count < Article3.CAP) :
    (Article3.bztree_desc leaf key).length = 2 ∧
    Article3.bztree_insert leaf key s =
      ({ keys := leaf.keys.set leaf.count key, count := leaf.count + 1 },
       { Nw := s.Nw + 4, Nclf := s.Nclf + 2, Nmf := s.Nmf + 2 }) := by
  refine ⟨rfl, ?_⟩
  have hn : ¬ Article3.CAP ≤ leaf.count := by omega
  cases s with
  | mk a b c =>
    cases leaf with
    | mk ks n =>
      simp [Article3.bztree_insert, hn, Article3.pmwcas, Article3.bztree_desc,
        Article3.writeLoc, pcm_write, pcm_flush, pcm_fence]

/-- The scan-then-shift insertion computes exactly the ordered insertion:
the scan skips keys strictly below the new key and the shift opens the slot
at the stop position. -/
theorem insertAt_insPos (keys : List Nat) (k : Nat) :
    insertAt keys (insPos keys k) k = List.orderedInsert (· ≤ ·) k keys := by
  induction keys with
  | nil => rfl
  | cons x xs ih =>
    by_cases h : x < k
    · have hnot : ¬ k ≤ x := by omega
      simp only [insPos, if_pos h]
      rw [List.orderedInsert, if_neg hnot]
      show x :: insertAt xs (insPos xs k) k =
        x :: List.orderedInsert (· ≤ ·) k xs
      rw [ih]
    · have hle : k ≤ x := by omega
      simp only [insPos, if_neg h]
      rw [List.orderedInsert, if_pos hle]
      rfl

/-- Key-sequence shape of insert_sorted: no-op at capacity, ordered
insertion below it. -/
theorem insert_sorted_keys (keys : List Nat) (k : Nat) (s : Stats) :
    (Article1.insert_sorted keys k s).1 =
      if 128 ≤ keys.length then keys
      else List.orderedInsert (· ≤ ·) k keys := by
  by_cases h : 128 ≤ keys.length <;>
    simp [Article1.insert_sorted, Article1.CAP, h, insertAt_insPos]

/-- Key-sequence shape of insert_unsorted: no-op at capacity, append below
it. -/
theorem insert_unsorted_keys (keys : List Nat) (k : Nat) (s : Stats) :
    (Article1.insert_unsorted keys k s).1 =
      if 128 ≤ keys.length then keys else keys ++ [k] := by
  by_cases h : 128 ≤ keys.length <;>
    simp [Article1.insert_unsorted, Article1.CAP, h]

/-- Key-sequence shape of LeafBTreeVolatile::insert: no-op at capacity,
ordered insertion below it. -/
theorem volatile_insert_keys (keys : List Nat) (k : Nat) (s : Stats) :
    (Article2.LeafBTreeVolatile.insert keys k s).1 =
      if 32 ≤ keys.length then keys
      else List.orderedInsert (· ≤ ·) k keys := by
  by_cases h : 32 ≤ keys.length <;>
    simp [Article2.LeafBTreeVolatile.insert, Article2.CAP, h, insertAt_insPos]

/-- Key-sequence shape of LeafBTreeLog::insert: no-op at capacity, ordered
insertion below it. -/
theorem log_insert_keys (keys : List Nat) (k : Nat) (s : Stats) :
    (Article2.LeafBTreeLog.insert keys k s).1 =
      if 32 ≤ keys.length then keys
      else List.orderedInsert (· ≤ ·) k keys := by
  by_cases h : 32 ≤ keys.length <;>
    simp [Article2.LeafBTreeLog.insert, Article2.CAP, h, insertAt_insPos]

/-- Folding any capacity-guarded ordered insert preserves sortedness of the
key sequence, with or without drops. -/
theorem build_keys_sorted (ins : List Nat → Nat → Stats → List Nat × Stats)
    (cap : Nat)
    (hins : ∀ keys k s, (ins keys k s).1 =
      if cap ≤ keys.length then keys
      else List.orderedInsert (· ≤ ·) k keys) :
    ∀ (ks acc : List Nat) (s : Stats), List.Sorted (· ≤ ·) acc →
      List.Sorted (· ≤ ·)
        ((ks.foldl (fun ls k => ins ls.1 k ls.2) (acc, s)).1) := by
  intro ks
  induction ks with
  | nil => intro acc s h; exact h
  | cons k ks ih =>
    intro acc s h
    have h2 : List.Sorted (· ≤ ·) (ins acc k s).1 := by
      rw [hins]
      split
      · exact h
      · exact List.Sorted.orderedInsert k acc h
    simp only [List.foldl_cons]
    exact ih (ins acc k s).1 (ins acc k s).2 h2

/-- Folding a capacity-guarded ordered insert below capacity yields a
permutation of the accumulated and the inserted keys. -/
theorem build_keys_perm (ins : List Nat → Nat → Stats → List Nat × Stats)
    (cap : Nat)
    (hins : ∀ keys k s, (ins keys k s).1 =
      if cap ≤ keys.length then keys
      else List.orderedInsert (· ≤ ·) k keys) :
    ∀ (ks acc : List Nat) (s : Stats), acc.length + ks.length ≤ cap →
      (ks.foldl (fun ls k => ins ls.1 k ls.2) (acc, s)).1.Perm (acc ++ ks) := by
  intro ks
  induction ks with
  | nil => intro acc s _; simp
  | cons k ks ih =>
    intro acc s h
    have hlt : ¬ cap ≤ acc.length := by
      simp only [List.length_cons] at h; omega
    have hk : (ins acc k s).1 = List.orderedInsert (· ≤ ·) k acc := by
      rw [hins, if_neg hlt]
    have hlen : (ins acc k s).1.length = acc.length + 1 := by
      rw [hk]; exact List.orderedInsert_length (· ≤ ·) acc k
    have hb : (ins acc k s).1.length + ks.length ≤ cap := by
      simp only [List.length_cons] at h; omega
    have hperm := ih (ins acc k s).1 (ins acc k s).2 hb
    simp only [List.foldl_cons]
    refine hperm.trans ?_
    have hstep1 : ((ins acc k s).1 ++ ks).Perm ((k :: acc) ++ ks) := by
      rw [hk]
      exact (List.perm_orderedInsert (· ≤ ·) k acc).append_right ks
    have hstep2 : ((k :: acc) ++ ks).Perm (acc ++ k :: ks) :=
      List.perm_middle.symm
    exact hstep1.trans hstep2

/-- Folding a capacity-guarded append below capacity yields exactly the
accumulated keys followed by the inserted keys, in order. -/
theorem build_keys_append (ins : List Nat → Nat → Stats → List Nat × Stats)
    (cap : Nat)
    (hins : ∀ keys k s, (ins keys k s).1 =
      if cap ≤ keys.length then keys else keys ++ [k]) :
    ∀ (ks acc : List Nat) (s : Stats), acc.length + ks.length ≤ cap →
      (ks.foldl (fun ls k => ins ls.1 k ls.2) (acc, s)).1 = acc ++ ks := by
  intro ks
  induction ks with
  | nil => intro acc s _; simp
  | cons k ks ih =>
    intro acc s h
    have hlt : ¬ cap ≤ acc.length := by
      simp only [List.length_cons] at h; omega
    have hk : (ins acc k s).1 = acc ++ [k] := by rw [hins, if_neg hlt]
    have hb : (ins acc k s).1.length + ks.length ≤ cap := by
      rw [hk]
      simp only [List.length_cons] at h
      simp only [List.length_append, List.length_cons, List.length_nil]
      omega
    simp only [List.foldl_cons]
    rw [ih (ins acc k s).1 (ins acc k s).2 hb, hk]
    simp

/-- The linear scan of search_leaf returns true exactly on the members of
the live prefix. -/
theorem search_leaf_iff_mem (l : List Nat) (t : Nat) :
    Article1.search_leaf l t = true ↔ t ∈ l := by
  induction l with
  | nil => simp [Article1.search_leaf]
  | cons x xs ih =>
    by_cases h : x = t
    · simp [Article1.search_leaf, h]
    · have h2 : ¬ t = x := fun he => h he.symm
      simp [Article1.search_leaf, h, ih, h2]

/-- Positional monotonicity of a sorted key sequence, through getD. -/
theorem sorted_getD_le (keys : List Nat) (hs : List.Sorted (· ≤ ·) keys)
    (i j : Nat) (hij : i ≤ j) (hj : j < keys.length) :
    keys.getD i 0 ≤ keys.getD j 0 := by
  have hi : i < keys.length := lt_of_le_of_lt hij hj
  rw [List.getD_eq_get keys 0 hi, List.getD_eq_get keys 0 hj]
  exact hs.rel_get_of_le (Fin.mk_le_mk.mpr hij)

/-- Soundness of the binary-search loop: a true answer means the key is in
the sequence (no false positives, with no sortedness assumption). -/
theorem bsearch_true_mem (keys : List Nat) (k : Nat) :
    ∀ (n : Nat) (lo hi : Int), (hi + 1 - lo).toNat ≤ n → 0 ≤ lo →
      hi < (keys.length : Int) → Article2.bsearch keys k lo hi = true →
      k ∈ keys := by
  intro n
  induction n with
  | zero =>
    intro lo hi hm hlo hhi hb
    rw [Article2.bsearch.eq_def, if_neg (by omega : ¬ lo ≤ hi)] at hb
    exact Bool.noConfusion hb
  | succ n ih =>
    intro lo hi hm hlo hhi hb
    rw [Article2.bsearch.eq_def] at hb
    by_cases hcmp : lo ≤ hi
    · rw [if_pos hcmp] at hb
      have hmid1 : lo ≤ (lo + hi) / 2 := by omega
      have hmid2 : (lo + hi) / 2 ≤ hi := by omega
      have hmlen : ((lo + hi) / 2).toNat < keys.length := by omega
      by_cases hv : keys.getD ((lo + hi) / 2).toNat 0 = k
      · rw [List.getD_eq_get keys 0 hmlen] at hv
        exact hv ▸ List.get_mem keys _ _
      · rw [if_neg hv] at hb
        by_cases hlt : keys.getD ((lo + hi) / 2).toNat 0 < k
        · rw [if_pos hlt] at hb
          exact ih ((lo + hi) / 2 + 1) hi (by omega) (by omega) hhi hb
        · rw [if_neg hlt] at hb
          exact ih lo ((lo + hi) / 2 - 1) (by omega) hlo (by omega) hb
    · rw [if_neg hcmp] at hb
      exact Bool.noConfusion hb

/-- Completeness of the binary-search loop on a sorted sequence: if some
index between lo and hi holds the key, the loop finds it. -/
theorem bsearch_complete (keys : List Nat) (k : Nat)
    (hs : List.Sorted (· ≤ ·) keys) :
    ∀ (n : Nat) (lo hi : Int) (i : Nat), (hi + 1 - lo).toNat ≤ n →
      i < keys.length → keys.getD i 0 = k → lo ≤ (i : Int) →
      (i : Int) ≤ hi → 0 ≤ lo → hi < (keys.length : Int) →
      Article2.bsearch keys k lo hi = true := by
  intro n
  induction n with
  | zero =>
    intro lo hi i hm hilen hik hloi hihi hlo hhi
    omega
  | succ n ih =>
    intro lo hi i hm hilen hik hloi hihi hlo hhi
    have hcmp : lo ≤ hi := le_trans hloi hihi
    rw [Article2.bsearch.eq_def, if_pos hcmp]
    have hmid1 : lo ≤ (lo + hi) / 2 := by omega
    have hmid2 : (lo + hi) / 2 ≤ hi := by omega
    have hmlen : ((lo + hi) / 2).toNat < keys.length := by omega
    by_cases hv : keys.getD ((lo + hi) / 2).toNat 0 = k
    · rw [if_pos hv]
    · rw [if_neg hv]
      by_cases hlt : keys.getD ((lo + hi) / 2).toNat 0 < k
      · rw [if_pos hlt]
        have hgt : (lo + hi) / 2 < (i : Int) := by
          by_contra hle
          push_neg at hle
          have hile : i ≤ ((lo + hi) / 2).toNat := by omega
          have hmono := sorted_getD_le keys hs i ((lo + hi) / 2).toNat hile hmlen
          omega
        exact ih ((lo + hi) / 2 + 1) hi i (by omega) hilen hik (by omega)
          hihi (by omega) hhi
      · rw [if_neg hlt]
        have hlt2 : (i : Int) < (lo + hi) / 2 := by
          by_contra hle
          push_neg at hle
          have hmle : ((lo + hi) / 2).toNat ≤ i := by omega
          have hmono := sorted_getD_le keys hs ((lo + hi) / 2).toNat i hmle hilen
          omega
        exact ih lo ((lo + hi) / 2 - 1) i (by omega) hilen hik hloi (by omega)
          hlo (by omega)

/-- LeafBTreeVolatile::search decides membership on a sorted key
sequence. -/
theorem volatile_search_iff (keys : List Nat) (k : Nat) (s : Stats)
    (hs : List.Sorted (· ≤ ·) keys) :
    (Article2.LeafBTreeVolatile.search keys k s).1 = true ↔ k ∈ keys := by
  constructor
  · intro hb
    exact bsearch_true_mem keys k keys.length 0 ((keys.length : Int) - 1)
      (by omega) (by omega) (by omega) hb
  · intro hmem
    obtain ⟨⟨i, hi⟩, hget⟩ := List.mem_iff_get.mp hmem
    have hik : keys.getD i 0 = k := by
      rw [List.getD_eq_get keys 0 hi]; exact hget
    exact bsearch_complete keys k hs keys.length 0 ((keys.length : Int) - 1)
      i (by omega) hi hik (by omega) (by omega) (by omega) (by omega)

/-- A fold whose step fixes every state is the identity. -/
theorem foldl_fixed {α β : Type} (f : β → α → β) (l : List α) (b : β)
    (h : ∀ (x : β) (a : α), f x a = x) : l.foldl f b = b := by
  induction l generalizing b with
  | nil => rfl
  | cons a l ih => rw [List.foldl_cons, h, ih]

/-- C3: for the sorted-shift variant (insert_sorted) and the
logging-sorted-shift variant (LeafBTreeLog::insert), after any sequence of
inserts starting from an empty leaf the stored key sequence is
non-decreasing. -/
theorem c3_sorted_invariant (ks : List Nat) :
    List.Sorted (· ≤ ·) ((buildWith Article1.insert_sorted ks).1) ∧
    List.Sorted (· ≤ ·) ((buildWith Article2.LeafBTreeLog.insert ks).1) :=
  ⟨build_keys_sorted Article1.insert_sorted 128 insert_sorted_keys ks []
     s0 List.sorted_nil,
   build_keys_sorted Article2.LeafBTreeLog.insert 32 log_insert_keys ks []
     s0 List.sorted_nil⟩

/-- C4: after a sequence of inserts from empty, none dropped for capacity,
search answers true exactly on the inserted keys and false on any other
key, for the binary-search variant (LeafBTreeVolatile) and the linear-scan
variant (unsorted leaf with search_leaf) alike. -/
theorem c4_search_roundtrip (ks : List Nat) (k q : Nat) (s : Stats)
    (h32 : ks.length ≤ 32) (h128 : ks.length ≤ 128) (hk : k ∈ ks)
    (hq : q ∉ ks) :
    (Article2.LeafBTreeVolatile.search
        ((buildWith Article2.LeafBTreeVolatile.insert ks).1) k s).1 = true ∧
    (Article2.LeafBTreeVolatile.search
        ((buildWith Article2.LeafBTreeVolatile.insert ks).1) q s).1 = false ∧
    Article1.search_leaf ((buildWith Article1.insert_unsorted ks).1) k
      = true ∧
    Article1.search_leaf ((buildWith Article1.insert_unsorted ks).1) q
      = false := by
  have hsorted := build_keys_sorted Article2.LeafBTreeVolatile.insert 32
    volatile_insert_keys ks [] s0 List.sorted_nil
  have hperm := build_keys_perm Article2.LeafBTreeVolatile.insert 32
    volatile_insert_keys ks [] s0 (by simpa using h32)
  have hmem : ∀ x, x ∈ (buildWith Article2.LeafBTreeVolatile.insert ks).1
      ↔ x ∈ ks := by
    intro x
    rw [show (buildWith Article2.LeafBTreeVolatile.insert ks).1 =
      (ks.foldl (fun ls k => Article2.LeafBTreeVolatile.insert ls.1 k ls.2)
        ([], s0)).1 from rfl, hperm.mem_iff]
    simp
  have happend := build_keys_append Article1.insert_unsorted 128
    insert_unsorted_keys ks [] s0 (by simpa using h128)
  have happend2 : (buildWith Article1.insert_unsorted ks).1 = ks := by
    rw [show (buildWith Article1.insert_unsorted ks).1 =
      (ks.foldl (fun ls k => Article1.insert_unsorted ls.1 k ls.2)
        ([], s0)).1 from rfl, happend]
    simp
  refine ⟨?_, ?_, ?_, ?_⟩
  · exact (volatile_search_iff _ k s hsorted).mpr ((hmem k).mpr hk)
  · cases hres : (Article2.LeafBTreeVolatile.search
        ((buildWith Article2.LeafBTreeVolatile.insert ks).1) q s).1 with
    | false => rfl
    | true =>
      exact absurd ((hmem q).mp ((volatile_search_iff _ q s hsorted).mp hres)) hq
  · rw [happend2]
    exact (search_leaf_iff_mem ks k).mpr hk
  · rw [happend2]
    cases hres : Article1.search_leaf ks q with
    | false => rfl
    | true => exact absurd ((search_leaf_iff_mem ks q).mp hres) hq

/-- C4 witness: keys [3,1,2], member 1, non-member 7. -/
theorem c4_search_roundtrip_witness :
    (Article2.LeafBTreeVolatile.search
        ((buildWith Article2.LeafBTreeVolatile.insert [3, 1, 2]).1) 1
        s0).1 = true ∧
    (Article2.LeafBTreeVolatile.search
        ((buildWith Article2.LeafBTreeVolatile.insert [3, 1, 2]).1) 7
        s0).1 = false ∧
    Article1.search_leaf ((buildWith Article1.insert_unsorted [3, 1, 2]).1)
      1 = true ∧
    Article1.search_leaf ((buildWith Article1.insert_unsorted [3, 1, 2]).1)
      7 = false :=
  c4_search_roundtrip [3, 1, 2] 1 7 s0 (by decide) (by decide) (by decide)
    (by decide)

/-- C9: searches never touch the meter, and a mixed-workload run at
writeRatio zero (every drawn r lies in [0,1), so r < 0 never holds) leaves
the counters exactly at their post-prefill values. -/
theorem c9_reads_record_no_cost (keys : List Nat) (key : Nat) (s : Stats)
    (prefill num_ops : Nat) (preKeys opKeys : Nat → Nat) (opRs : Nat → ℚ)
    (t0 t1 : ℚ) (hr : ∀ i, 0 ≤ opRs i) :
    (Article1Ext.UnsortedLeaf.search keys key s).2 = s ∧
    (run_mixed_workload Article1Ext.unsortedStrategy prefill num_ops 0
        preKeys opKeys opRs t0 t1).1.stats =
      (prefillPhase Article1Ext.unsortedStrategy prefill preKeys).2 := by
  refine ⟨rfl, ?_⟩
  have hstep : ∀ (ls : List Nat × Stats) (i : Nat),
      opStep Article1Ext.unsortedStrategy 0 (opRs i) (opKeys i) ls = ls := by
    intro ls i
    simp only [opStep, Article1Ext.unsortedStrategy,
      Article1Ext.UnsortedLeaf.search]
    rw [if_neg (not_lt.mpr (hr i))]
  show (timedPhase Article1Ext.unsortedStrategy num_ops 0 opRs opKeys
      (prefillPhase Article1Ext.unsortedStrategy prefill preKeys)).2 = _
  rw [timedPhase, foldl_fixed _ _ _ hstep]

/-- C9 witness: two prefill keys, three timed iterations, all reads. -/
theorem c9_reads_record_no_cost_witness :
    (Article1Ext.UnsortedLeaf.search [1, 2] 5 s0).2 = s0 ∧
    (run_mixed_workload Article1Ext.unsortedStrategy 2 3 0 (fun i => i + 1)
        (fun i => i + 7) (fun _ => (1 : ℚ)/2) 0 1).1.stats =
      (prefillPhase Article1Ext.unsortedStrategy 2 (fun i => i + 1)).2 :=
  c9_reads_record_no_cost [1, 2] 5 s0 2 3 (fun i => i + 1) (fun i => i + 7)
    (fun _ => (1 : ℚ)/2) 0 1 (fun _ => by norm_num)

/-- C10 witness: a concrete leaf with count 5 out of 32. -/
theorem c10_bztree_insert_below_cap_witness :
    (Article3.bztree_desc ⟨List.replicate 32 0, 5⟩ 9).length = 2 ∧
    Article3.bztree_insert ⟨List.replicate 32 0, 5⟩ 9 s0 =
      ({ keys := (List.replicate 32 0).set 5 9, count := 6 },
       { Nw := 4, Nclf := 2, Nmf := 2 }) :=
  c10_bztree_insert_below_cap ⟨List.replicate 32 0, 5⟩ 9 s0 (by decide)

end PMSim
